import Mathlib

/-!
# KubeRoot — verification of the specification against the source

Shallow embedding of the KubeRoot backend core (failure normalizer,
diagnosis engine, tenant store, auth gateway, ingestion handler) as
executable Lean definitions, together with theorems settling the
frozen claims about the specification.

Go `string` values are modelled as Lean `String`; Go byte slices as
`List Nat` (each element `< 256`); Go `int` scores as `Nat` (all the
scores involved are provably in `{0,1,2,3}` so Go's signed arithmetic
and Nat arithmetic coincide on every reachable value); `time.Time`
values as `Nat` instants (`0` plays the role of Go's zero time, as
tested by `IsZero`).
-/

namespace KubeRoot

/-! ## String primitives (embedding of the Go `strings` stdlib calls) -/

/-- ASCII whitespace, as recognized by Go's `unicode.IsSpace` for the
ASCII range (`strings.TrimSpace` trims these). -/
def isSpaceChar (c : Char) : Bool :=
  c == ' ' || c == '\t' || c == '\n' || c == '\r' ||
  c == Char.ofNat 11 || c == Char.ofNat 12

/-- Embeds `strings.TrimSpace` (restricted to ASCII whitespace). -/
def goTrim (s : String) : String :=
  ⟨((s.data.dropWhile isSpaceChar).reverse.dropWhile isSpaceChar).reverse⟩

/-- ASCII lowering of one character, the behaviour of
`strings.ToLower` on ASCII input. -/
def charLower (c : Char) : Char :=
  if 'A' ≤ c && c ≤ 'Z' then Char.ofNat (c.toNat + 32) else c

/-- Embeds `strings.ToLower` (restricted to ASCII). -/
def goToLower (s : String) : String :=
  ⟨s.data.map charLower⟩

/-- `listBeg l pat` holds when `pat` is an initial segment of `l`. -/
def listBeg : List Char → List Char → Bool
  | _, [] => true
  | [], _ :: _ => false
  | c :: cs, p :: ps => c == p && listBeg cs ps

/-- `listHasSub l sub`: `sub` occurs contiguously inside `l`. -/
def listHasSub : List Char → List Char → Bool
  | [], sub => sub.isEmpty
  | c :: cs, sub => listBeg (c :: cs) sub || listHasSub cs sub

/-- Embeds `strings.Contains s sub`. -/
def goContains (s sub : String) : Bool :=
  listHasSub s.data sub.data

/-! ## Diagnosis engine (embedding of `internal/analyzer`, src/unnamed/part_004) -/

/-- Embeds the `Rule` struct of the analyzer package. -/
structure Rule where
  FailureType : String
  LikelyCause : String
  SuggestedFix : String
  Confidence : String
  deriving Repr, DecidableEq

/-- Embeds the `v1Rules` table: the three compiled-in rules. -/
def v1Rules : List Rule :=
  [ { FailureType := "CrashLoopBackOff"
    , LikelyCause := "Application crash or configuration error"
    , SuggestedFix := "Check application logs; verify environment variables; validate ConfigMap/Secret mounts"
    , Confidence := "medium" }
  , { FailureType := "OOMKilled"
    , LikelyCause := "Container exceeded memory limit"
    , SuggestedFix := "Increase memory limit; inspect memory usage; investigate memory leaks"
    , Confidence := "high" }
  , { FailureType := "ImagePullBackOff"
    , LikelyCause := "Image pull failed due to image name, registry access, or credentials"
    , SuggestedFix := "Verify image name; check registry access; validate pull secret for private registry"
    , Confidence := "high" } ]

/-- Embeds the `ruleMap` built at the top of `DiagnoseFailures`: a Go map
keyed by `FailureType` where a later insert would overwrite an earlier
one, hence lookup finds the last matching table entry. -/
def ruleFor (ft : String) : Option Rule :=
  v1Rules.reverse.find? (fun r => r.FailureType == ft)

/-- Embeds `confidenceScore` (part_004 lines 116–127). -/
def confidenceScore (confidence : String) : Nat :=
  if goToLower confidence == "high" then 3
  else if goToLower confidence == "medium" then 2
  else 1

/-- Embeds `scoreConfidence` (part_004 lines 129–135). -/
def scoreConfidence (score : Nat) : String :=
  if score ≥ 3 then "high"
  else if score == 2 then "medium"
  else "low"

/-- Embeds the `switch failureType` body inside `enrichConfidence`'s
event loop: does one (already lowercased) event text match the keyword
checks for this failure type. -/
def eventMatchesType (failureType lowerEvent : String) : Bool :=
  if failureType == "CrashLoopBackOff" then
    goContains lowerEvent "back-off restarting" ||
    goContains lowerEvent "crashloopbackoff" ||
    goContains lowerEvent "failed"
  else if failureType == "OOMKilled" then
    goContains lowerEvent "oomkilled" ||
    goContains lowerEvent "out of memory" ||
    goContains lowerEvent "killing"
  else if failureType == "ImagePullBackOff" then
    goContains lowerEvent "failed to pull image" ||
    goContains lowerEvent "pull access denied" ||
    goContains lowerEvent "manifest unknown" ||
    goContains lowerEvent "imagepullbackoff"
  else false

/-- Embeds `enrichConfidence` (part_004 lines 83–114): the event loop
accumulates `evidenceScore` with `maxInt`, the empty-event penalty is
applied to `baseScore`, the sum is clamped at 3 and mapped back. -/
def enrichConfidence (base failureType : String) (events : List String) : String :=
  let baseScore := confidenceScore base
  let evidenceScore := events.foldl
    (fun acc event =>
      if eventMatchesType failureType (goToLower event) then max acc 1 else acc) 0
  let baseScore := if events.length == 0 then max 1 (baseScore - 1) else baseScore
  let finalScore := baseScore + evidenceScore
  let finalScore := if finalScore > 3 then 3 else finalScore
  scoreConfidence finalScore

/-- Embeds the `Diagnosis` struct of the analyzer package. The wall
clock read by `time.Now().UTC()` is threaded in as an explicit `now`
parameter of `DiagnoseFailures`. -/
structure Diagnosis where
  OrganizationID : String
  ClusterID : String
  PodName : String
  Namespace : String
  FailureType : String
  LikelyCause : String
  SuggestedFix : String
  Confidence : String
  Events : List String
  Timestamp : Nat
  deriving Repr, DecidableEq

/-- Embeds the `PodFailure` struct of `internal/k8s/client.go`. -/
structure PodFailure where
  Namespace : String
  Name : String
  Container : String
  Types : List String
  Message : String
  Events : List String
  deriving Repr, DecidableEq

/-- The body of the inner loop of `DiagnoseFailures` for one
`failureType` tag: `rule, exists := ruleMap[failureType]`, `continue`
when absent, otherwise the appended `Diagnosis`. -/
def mkDiagnosis (orgID clusterID : String) (now : Nat) (failure : PodFailure)
    (failureType : String) : Option Diagnosis :=
  match ruleFor failureType with
  | none => none
  | some rule => some
      { OrganizationID := orgID
      , ClusterID := clusterID
      , PodName := failure.Name
      , Namespace := failure.Namespace
      , FailureType := rule.FailureType
      , LikelyCause := rule.LikelyCause
      , SuggestedFix := rule.SuggestedFix
      , Confidence := enrichConfidence rule.Confidence rule.FailureType failure.Events
      , Events := failure.Events
      , Timestamp := now }

/-- Embeds `DiagnoseFailures` (part_004 lines 51–81): for each failure
and each of its type tags, look the tag up in the rule map; tags with
no rule are skipped with `continue`; matches produce one `Diagnosis`
in input order. -/
def DiagnoseFailures (orgID clusterID : String) (now : Nat)
    (failures : List PodFailure) : List Diagnosis :=
  failures.flatMap (fun failure =>
    failure.Types.filterMap (mkDiagnosis orgID clusterID now failure))

/-! ## Spec-side confidence algorithm (for the refinement claim C1)

The following two definitions are written from the words of the
specification's "Confidence algorithm", not from the source, to be
compared against `enrichConfidence`. -/

/-- The failure-type-specific keyword sets named in the spec's step 3.-/
def specKeywords (failureType : String) : List String :=
  if failureType == "CrashLoopBackOff" then
    ["back-off restarting", "crashloopbackoff", "failed"]
  else if failureType == "OOMKilled" then
    ["oomkilled", "out of memory", "killing"]
  else if failureType == "ImagePullBackOff" then
    ["failed to pull image", "pull access denied", "manifest unknown", "imagepullbackoff"]
  else []

/-- The spec's confidence algorithm, step by step: tier→score, the
empty-event-list penalty floored at 1, at most one added evidence
point when any event text case-insensitively contains a keyword of
the failure type, clamp at 3, and the 3→high / 2→medium / else→low
map back. -/
def specConfidence (base failureType : String) (events : List String) : String :=
  let s1 : Nat := if base == "low" then 1 else if base == "medium" then 2
    else if base == "high" then 3 else 1
  let s2 := if events.isEmpty then max 1 (s1 - 1) else s1
  let s3 := if events.any (fun e =>
      (specKeywords failureType).any (fun k => goContains (goToLower e) k))
    then s2 + 1 else s2
  let s4 := min s3 3
  if s4 == 3 then "high" else if s4 == 2 then "medium" else "low"

/-! ## Helper lemmas about the engine -/

/-- The `evidenceScore` fold of `enrichConfidence` is 1 when some event
matches and otherwise leaves the accumulator unchanged. -/
theorem foldl_max_evidence (f : String → Bool) :
    ∀ (es : List String) (acc : Nat),
      es.foldl (fun a e => if f e then max a 1 else a) acc
        = if es.any f then max acc 1 else acc
  | [], acc => by simp
  | e :: es, acc => by
    simp only [List.foldl_cons, List.any_cons, foldl_max_evidence f es]
    rcases Bool.eq_false_or_eq_true (f e) with h | h <;>
      rcases Bool.eq_false_or_eq_true (es.any f) with hq | hq <;>
        simp [h, hq, Nat.max_assoc]

/-- The `switch` body of `enrichConfidence` is exactly a keyword-set
scan over the spec's keyword list for that failure type. -/
theorem eventMatchesType_eq_anyKeyword (ft le : String) :
    eventMatchesType ft le = (specKeywords ft).any (fun k => goContains le k) := by
  by_cases h1 : ft = "CrashLoopBackOff"
  · simp [eventMatchesType, specKeywords, h1, Bool.or_assoc]
  by_cases h2 : ft = "OOMKilled"
  · simp [eventMatchesType, specKeywords, h1, h2, Bool.or_assoc]
  by_cases h3 : ft = "ImagePullBackOff"
  · simp [eventMatchesType, specKeywords, h1, h2, h3, Bool.or_assoc]
  · simp [eventMatchesType, specKeywords, h1, h2, h3, Bool.or_assoc]

theorem cons_length_beq_zero (e : String) (es : List String) :
    ((e :: es).length == 0) = false := by simp

/-- C1: for every rule base tier in {low, medium, high}, matching
failure type, and event list, the enriched confidence computed by
`enrichConfidence` equals the result of the spec's algorithm
(`specConfidence`): tier→score (low=1, medium=2, high=3); minus one
floored at 1 on an empty event list; plus exactly one when any event
text case-insensitively contains a keyword of the failure type's
keyword set; clamped at 3; mapped back with 3=high, 2=medium,
else=low. -/
theorem C1_enrichConfidence_matches_spec (base ft : String) (events : List String)
    (hb : base = "low" ∨ base = "medium" ∨ base = "high")
    (hf : ft = "CrashLoopBackOff" ∨ ft = "OOMKilled" ∨ ft = "ImagePullBackOff") :
    enrichConfidence base ft events = specConfidence base ft events := by
  cases events with
  | nil =>
    rcases hb with rfl | rfl | rfl <;> rcases hf with rfl | rfl | rfl <;> decide
  | cons e es =>
    simp only [enrichConfidence, specConfidence, foldl_max_evidence,
      List.isEmpty_cons, cons_length_beq_zero, eventMatchesType_eq_anyKeyword,
      Bool.false_eq_true, if_false]
    rcases Bool.eq_false_or_eq_true
        ((e :: es).any fun x => (specKeywords ft).any fun k => goContains (goToLower x) k)
      with h | h <;> rw [h] <;> rcases hb with rfl | rfl | rfl <;> simp <;> decide

/-- C1 witness: the spec's own scenario — base tier high, image-pull
failure type, zero events — where both sides evaluate to medium. -/
theorem C1_enrichConfidence_matches_spec_witness :
    enrichConfidence "high" "ImagePullBackOff" []
        = specConfidence "high" "ImagePullBackOff" [] ∧
    enrichConfidence "high" "ImagePullBackOff" [] = "medium" :=
  ⟨C1_enrichConfidence_matches_spec "high" "ImagePullBackOff" []
      (Or.inr (Or.inr rfl)) (Or.inr (Or.inr rfl)),
    by decide⟩

/-- C8: for every rule of the table and every event list containing at
least one event matching that rule's failure-type keyword checks, the
enriched confidence tier is at least the rule's base tier (tiers
compared through their numeric scores). -/
theorem C8_evidence_never_lowers_confidence (r : Rule) (events : List String)
    (hr : r ∈ v1Rules)
    (hm : ∃ e ∈ events, eventMatchesType r.FailureType (goToLower e) = true) :
    confidenceScore r.Confidence ≤
      confidenceScore (enrichConfidence r.Confidence r.FailureType events) := by
  obtain ⟨e, he, hmatch⟩ := hm
  have hne : events ≠ [] := by rintro rfl; cases he
  have hany : events.any (fun x => eventMatchesType r.FailureType (goToLower x)) = true :=
    List.any_eq_true.mpr ⟨e, he, hmatch⟩
  have hlen : (events.length == 0) = false := by
    cases events
    · exact absurd rfl hne
    · simp
  fin_cases hr <;>
    simp only [enrichConfidence, foldl_max_evidence] <;>
      simp only [hany, hlen] <;> decide

/-- C8 witness: the restart-loop rule (base medium) with a matching
back-off event enriches to a tier at least medium. -/
theorem C8_evidence_never_lowers_confidence_witness :
    confidenceScore "medium" ≤
      confidenceScore (enrichConfidence "medium" "CrashLoopBackOff"
        ["BackOff: Back-off restarting failed container"]) :=
  C8_evidence_never_lowers_confidence
    { FailureType := "CrashLoopBackOff"
    , LikelyCause := "Application crash or configuration error"
    , SuggestedFix := "Check application logs; verify environment variables; validate ConfigMap/Secret mounts"
    , Confidence := "medium" }
    ["BackOff: Back-off restarting failed container"]
    (by decide)
    ⟨"BackOff: Back-off restarting failed container", by decide, by decide⟩

/-- A successful rule lookup returns a rule keyed by the queried type.-/
theorem ruleFor_failureType {t : String} {r : Rule} (h : ruleFor t = some r) :
    r.FailureType = t := by
  have hp := List.find?_some h
  simpa [beq_iff_eq] using hp

/-- Any diagnosis produced for one type tag carries a failure type
that has a rule in the table. -/
theorem mkDiagnosis_some_hasRule {o c : String} {n : Nat} {f : PodFailure}
    {t : String} {d : Diagnosis} (h : mkDiagnosis o c n f t = some d) :
    (ruleFor d.FailureType).isSome = true := by
  unfold mkDiagnosis at h
  cases hr : ruleFor t with
  | none => rw [hr] at h; cases h
  | some rule =>
    rw [hr] at h
    cases h
    have := ruleFor_failureType hr
    simp [this, hr]

/-- Per failure, the inner loop emits exactly one diagnosis per type
tag that has a rule. -/
theorem length_filterMap_mkDiagnosis (o c : String) (n : Nat) (f : PodFailure) :
    ∀ ts : List String,
      (ts.filterMap (mkDiagnosis o c n f)).length
        = (ts.filter (fun t => (ruleFor t).isSome)).length
  | [] => rfl
  | t :: ts => by
    cases hr : ruleFor t <;>
      simp [mkDiagnosis, hr, List.filterMap_cons, length_filterMap_mkDiagnosis o c n f ts]

/-- C7: the Diagnosis Engine produces no Diagnosis for any
(record, failure-type) pair whose type has no rule-table entry — in
particular `FailedScheduling` is absent from the three-entry table —
and this is not an error: the engine returns normally with exactly one
Diagnosis per rule-matching pair. -/
theorem C7_ruleless_types_silently_dropped (orgID clusterID : String) (now : Nat)
    (failures : List PodFailure) :
    ruleFor "FailedScheduling" = none ∧
    (DiagnoseFailures orgID clusterID now failures).all
        (fun d => (ruleFor d.FailureType).isSome) = true ∧
    (DiagnoseFailures orgID clusterID now failures).length =
      (failures.map (fun f => (f.Types.filter (fun t => (ruleFor t).isSome)).length)).sum := by
  refine ⟨by decide, ?_, ?_⟩
  · rw [List.all_eq_true]
    intro d hd
    simp only [DiagnoseFailures, List.mem_flatMap, List.mem_filterMap] at hd
    obtain ⟨f, _, t, _, hmk⟩ := hd
    exact mkDiagnosis_some_hasRule hmk
  · induction failures with
    | nil => rfl
    | cons f fs ih =>
      simp [DiagnoseFailures, length_filterMap_mkDiagnosis] at ih ⊢
      omega

/-! ## Failure normalizer event correlation
(embedding of `getRecentPodEvents` / `eventTimestamp`,
`internal/k8s/client.go` lines 201–272) -/

/-- The fields of a `corev1.Event` read by the normalizer. Timestamps
are `Nat` instants; `0` is Go's zero time (`IsZero`); the optional
`Series` pointer is an `Option`. -/
structure KEvent where
  Reason : String
  Message : String
  EventTime : Nat
  LastTimestamp : Nat
  SeriesLastObserved : Option Nat
  FirstTimestamp : Nat
  CreationTimestamp : Nat
  deriving Repr, DecidableEq

/-- Embeds `eventTimestamp` (client.go lines 255–272): the first
non-zero timestamp along the fallback chain event time → last
timestamp → series last-observed (when the series exists) → first
timestamp → creation time, else the zero time. -/
def eventTimestamp (e : KEvent) : Nat :=
  if e.EventTime ≠ 0 then e.EventTime
  else if e.LastTimestamp ≠ 0 then e.LastTimestamp
  else if e.SeriesLastObserved.getD 0 ≠ 0 then e.SeriesLastObserved.getD 0
  else if e.FirstTimestamp ≠ 0 then e.FirstTimestamp
  else if e.CreationTimestamp ≠ 0 then e.CreationTimestamp
  else 0

/-- The skip test of the event loop: both trimmed texts blank. -/
def eventBlank (e : KEvent) : Bool :=
  goTrim e.Reason == "" && goTrim e.Message == ""

/-- The `text` computed for one event: `reason`, `reason ++ ": " ++
message` when both present, or `message` when only it is present. -/
def eventText (e : KEvent) : String :=
  let reason := goTrim e.Reason
  let message := goTrim e.Message
  if !(reason == "") && !(message == "") then reason ++ ": " ++ message
  else if reason == "" then message
  else reason

/-- One collected entry: the deduplication text plus the timestamp. -/
structure EventEntry where
  text : String
  ts : Nat
  deriving Repr, DecidableEq

/-- Embeds the collection loop of `getRecentPodEvents` (client.go
lines 215–240): drop blank events, deduplicate by text against the
`seen` set with the first occurrence kept. -/
def collectEntries : List KEvent → List String → List EventEntry
  | [], _ => []
  | e :: rest, seen =>
    if eventBlank e then collectEntries rest seen
    else if seen.contains (eventText e) then collectEntries rest seen
    else { text := eventText e, ts := eventTimestamp e }
        :: collectEntries rest (eventText e :: seen)

/-- The descending-timestamp ordering used by the `sort.Slice` call
(`entries[i].ts.After(entries[j].ts)`), made reflexive so it is total.-/
def entryGE (a b : EventEntry) : Prop := b.ts ≤ a.ts

instance : DecidableRel entryGE := fun a b => Nat.decLe b.ts a.ts

instance : IsTotal EventEntry entryGE := ⟨fun a b => Nat.le_total b.ts a.ts⟩

instance : IsTrans EventEntry entryGE := ⟨fun _ _ _ hab hbc => Nat.le_trans hbc hab⟩

/-- The collected entries sorted newest-first, as after the
`sort.Slice` call of `getRecentPodEvents`. -/
def sortedEntries (events : List KEvent) : List EventEntry :=
  List.insertionSort entryGE (collectEntries events [])

/-- Embeds `getRecentPodEvents` (client.go lines 201–253) after the
event fetch: collect, sort descending, truncate to `limit` when the
limit is positive and exceeded, and keep the texts. -/
def getRecentPodEvents (events : List KEvent) (limit : Nat) : List String :=
  let entries := sortedEntries events
  let entries := if 0 < limit ∧ limit < entries.length then entries.take limit else entries
  entries.map (fun x => x.text)

/-- Four raw events sharing one reason+message text, differing only in
their precise event time. -/
def dupEvent (i : Nat) : KEvent :=
  { Reason := "BackOff", Message := "restarting", EventTime := i
  , LastTimestamp := 0, SeriesLastObserved := none
  , FirstTimestamp := 0, CreationTimestamp := 0 }

/-- Four raw events with pairwise distinct reason texts. -/
def distinctEvents : List KEvent :=
  [ { Reason := "Scheduled", Message := "assigned", EventTime := 1
    , LastTimestamp := 0, SeriesLastObserved := none
    , FirstTimestamp := 0, CreationTimestamp := 0 }
  , { Reason := "Pulled", Message := "image present", EventTime := 2
    , LastTimestamp := 0, SeriesLastObserved := none
    , FirstTimestamp := 0, CreationTimestamp := 0 }
  , { Reason := "Created", Message := "container created", EventTime := 3
    , LastTimestamp := 0, SeriesLastObserved := none
    , FirstTimestamp := 0, CreationTimestamp := 0 }
  , { Reason := "BackOff", Message := "restarting", EventTime := 4
    , LastTimestamp := 0, SeriesLastObserved := none
    , FirstTimestamp := 0, CreationTimestamp := 0 } ]

/-- The collection loop never emits a text it has seen, and emits no
text twice. -/
theorem collectEntries_nodup_aux : ∀ (es : List KEvent) (seen : List String),
    (∀ t ∈ (collectEntries es seen).map (fun x => x.text), t ∉ seen)
    ∧ ((collectEntries es seen).map (fun x => x.text)).Nodup
  | [], seen => by simp [collectEntries]
  | e :: rest, seen => by
    by_cases hb : eventBlank e
    · simpa [collectEntries, hb] using collectEntries_nodup_aux rest seen
    by_cases hc : eventText e ∈ seen
    · simpa [collectEntries, hb, hc] using collectEntries_nodup_aux rest seen
    · have ih := collectEntries_nodup_aux rest (eventText e :: seen)
      constructor
      · intro t ht
        simp only [collectEntries, if_neg hb, List.elem_eq_mem, decide_eq_true_eq,
          if_neg hc, List.map_cons, List.mem_cons] at ht
        rcases ht with rfl | ht
        · exact hc
        · intro hmem
          exact ih.1 t ht (List.mem_cons_of_mem _ hmem)
      · simp only [collectEntries, if_neg hb, List.elem_eq_mem, decide_eq_true_eq,
          if_neg hc, List.map_cons, List.nodup_cons]
        exact ⟨fun hmem => ih.1 _ hmem (List.mem_cons_self _ _), ih.2⟩

/-- After sorting, the texts are still pairwise distinct. -/
theorem sortedEntries_texts_nodup (events : List KEvent) :
    ((sortedEntries events).map (fun x => x.text)).Nodup := by
  have hperm := (List.perm_insertionSort entryGE (collectEntries events [])).symm
  exact ((hperm.map (fun x => x.text)).nodup (collectEntries_nodup_aux events []).2)

/-- C6 counterexample: an event list longer than the cap (four raw
events) whose normalized list has length 1, not the cap 3 — the four
events share one reason+message text, so deduplication leaves a single
entry. This refutes the claim's final clause as stated ("when the
input exceeds the cap it contains exactly the cap most-recent
entries"). -/
theorem C6_counterexample_duplicates_beat_cap :
    3 < ([dupEvent 1, dupEvent 2, dupEvent 3, dupEvent 4] : List KEvent).length ∧
    getRecentPodEvents [dupEvent 1, dupEvent 2, dupEvent 3, dupEvent 4] 3
      = ["BackOff: restarting"] ∧
    (getRecentPodEvents [dupEvent 1, dupEvent 2, dupEvent 3, dupEvent 4] 3).length ≠ 3 := by
  decide

/-- C6 (amended): the normalized list never exceeds the cap 3 and
contains no duplicate texts; and whenever the entries *surviving the
blank-drop and deduplication* exceed the cap, the output has exactly
the cap's length and consists of entries each at least as recent (by
the timestamp-fallback ordering) as every excluded surviving entry. -/
theorem C6_event_normalization_amended (events : List KEvent) :
    (getRecentPodEvents events 3).length ≤ 3 ∧
    (getRecentPodEvents events 3).Nodup ∧
    (3 < (collectEntries events []).length →
      (getRecentPodEvents events 3).length = 3 ∧
      ∀ x ∈ (sortedEntries events).drop 3, ∀ y ∈ (sortedEntries events).take 3,
        x.ts ≤ y.ts) := by
  have hlen : (sortedEntries events).length = (collectEntries events []).length :=
    (List.perm_insertionSort entryGE (collectEntries events [])).length_eq
  have hnodup := sortedEntries_texts_nodup events
  refine ⟨?_, ?_, fun h => ⟨?_, ?_⟩⟩
  · unfold getRecentPodEvents
    simp only [List.length_map]
    split
    next hcond => simp [List.length_take]
    next hcond => omega
  · simp only [getRecentPodEvents]
    split
    next hcond =>
      exact List.Nodup.sublist ((List.take_sublist _ _).map _) hnodup
    next hcond => exact hnodup
  · unfold getRecentPodEvents
    simp only [List.length_map]
    split
    next hcond => simp [List.length_take]; omega
    next hcond => omega
  · intro x hx y hy
    have hs := List.sorted_insertionSort entryGE (collectEntries events [])
    exact hs.rel_of_mem_take_of_mem_drop hy hx

/-- C6 witness: four distinct-text events; the normalization keeps
exactly the cap of 3 entries. -/
theorem C6_event_normalization_amended_witness :
    3 < (collectEntries distinctEvents []).length ∧
    (getRecentPodEvents distinctEvents 3).length = 3 :=
  ⟨by decide, ((C6_event_normalization_amended distinctEvents).2.2 (by decide)).1⟩

/-! ## Tenant store (embedding of `internal/store/postgres.go`)

The database is modelled as explicit state: the `clusters` table is an
association list keyed by cluster id, and the `diagnoses` table a list
of rows. SQL `WHERE` clauses become row predicates, `ORDER BY
created_at DESC` a sort by the descending-timestamp relation, and
`LIMIT` a `take`. -/

/-- One row of the `diagnoses` table. -/
structure DRow where
  OrganizationID : String
  ClusterID : String
  PodName : String
  Namespace : String
  FailureType : String
  LikelyCause : String
  SuggestedFix : String
  Confidence : String
  Events : List String
  CreatedAt : Nat
  deriving Repr, DecidableEq

/-- Embeds `DiagnosisHistoryFilter` (src/unnamed/part_005). -/
structure DiagnosisHistoryFilter where
  Limit : Int
  FailureType : String
  Namespace : String
  Since : Option Nat
  Until : Option Nat
  deriving Repr, DecidableEq

/-- The stored state: the `clusters` table (cluster id → owning
organization) and the `diagnoses` table. -/
structure DB where
  clusters : List (String × String)
  diagnoses : List DRow
  deriving Repr, DecidableEq

/-- The optional `WHERE` clauses of `ListDiagnoses` beyond the tenant
scope: cluster id, failure type, namespace, and the time window. -/
def restMatches (clusterID : String) (filter : DiagnosisHistoryFilter) (r : DRow) : Bool :=
  (r.ClusterID == clusterID) &&
  (filter.FailureType == "" || r.FailureType == filter.FailureType) &&
  (filter.Namespace == "" || r.Namespace == filter.Namespace) &&
  (match filter.Since with | none => true | some t => decide (t ≤ r.CreatedAt)) &&
  (match filter.Until with | none => true | some t => decide (r.CreatedAt ≤ t))

/-- The full `WHERE` conjunction of `ListDiagnoses` (postgres.go lines
112–139): `organization_id = $1` is always the first predicate. -/
def rowMatches (organizationID clusterID : String) (filter : DiagnosisHistoryFilter)
    (r : DRow) : Bool :=
  (r.OrganizationID == organizationID) && restMatches clusterID filter r

/-- `ORDER BY created_at DESC`, made reflexive so it is total. -/
def rowGE (a b : DRow) : Prop := b.CreatedAt ≤ a.CreatedAt

instance : DecidableRel rowGE := fun a b => Nat.decLe b.CreatedAt a.CreatedAt

instance : IsTotal DRow rowGE := ⟨fun a b => Nat.le_total b.CreatedAt a.CreatedAt⟩

instance : IsTrans DRow rowGE := ⟨fun _ _ _ hab hbc => Nat.le_trans hbc hab⟩

/-- Embeds `ListDiagnoses` (postgres.go lines 106–195): default limit
50 when the filter's limit is non-positive, mandatory tenant and
cluster scoping, optional failure-type / namespace / time-window
clauses, newest-first ordering, and the row limit. -/
def ListDiagnoses (db : DB) (organizationID clusterID : String)
    (filter : DiagnosisHistoryFilter) : List DRow :=
  let lim : Int := if filter.Limit ≤ 0 then 50 else filter.Limit
  (List.insertionSort rowGE
    (db.diagnoses.filter (rowMatches organizationID clusterID filter))).take lim.toNat

/-- The row inserted for one `Diagnosis` by `SaveDiagnoses`: the
organization and cluster columns come from the call's arguments, the
rest from the diagnosis, `created_at` from its timestamp. -/
def rowOf (organizationID clusterID : String) (d : Diagnosis) : DRow :=
  { OrganizationID := organizationID
  , ClusterID := clusterID
  , PodName := d.PodName
  , Namespace := d.Namespace
  , FailureType := d.FailureType
  , LikelyCause := d.LikelyCause
  , SuggestedFix := d.SuggestedFix
  , Confidence := d.Confidence
  , Events := d.Events
  , CreatedAt := d.Timestamp }

/-- Embeds the cluster upsert of `SaveDiagnoses`: `INSERT ... ON
CONFLICT (id) DO UPDATE SET organization_id = EXCLUDED.organization_id`.-/
def upsertCluster (cs : List (String × String)) (clusterID organizationID : String) :
    List (String × String) :=
  if cs.any (fun p => p.1 == clusterID) then
    cs.map (fun p => if p.1 == clusterID then (p.1, organizationID) else p)
  else cs ++ [(clusterID, organizationID)]

/-- The per-diagnosis insert loop of `SaveDiagnoses`, operating on the
transaction's pending state `tx`. `fail idx` says whether the
statement execution numbered `idx` errors (the fault model for the
database connection); the first error aborts the loop. -/
def insertLoop (fail : Nat → Bool) (idx : Nat) (tx : DB)
    (organizationID clusterID : String) : List Diagnosis → Except String DB
  | [] => .ok tx
  | d :: rest =>
    if fail idx then .error "insert diagnosis"
    else insertLoop fail (idx + 1)
      { tx with diagnoses := tx.diagnoses ++ [rowOf organizationID clusterID d] }
      organizationID clusterID rest

/-- Embeds `SaveDiagnoses` (postgres.go lines 197–265). The returned
pair is (outcome, visible stored state after the call). Every
statement runs against the transaction's pending state; the deferred
`tx.Rollback()` means any early error return leaves the visible state
at `db`; only `tx.Commit()` publishes the pending state. Operation
indices: 0 = `BeginTx`, 1 = the cluster upsert, 2 = `Commit` (empty
batch) or `PrepareContext`, 3..2+n = the n inserts, 3+n = `Commit`. -/
def SaveDiagnoses (fail : Nat → Bool) (db : DB) (organizationID clusterID : String)
    (diagnoses : List Diagnosis) : Except String Unit × DB :=
  if fail 0 then (.error "begin tx", db)
  else
    let tx0 := db
    if fail 1 then (.error "upsert cluster", db)
    else
      let tx1 := { tx0 with clusters := upsertCluster tx0.clusters clusterID organizationID }
      if diagnoses.isEmpty then
        if fail 2 then (.error "commit tx", db) else (.ok (), tx1)
      else
        if fail 2 then (.error "prepare insert diagnosis", db)
        else
          match insertLoop fail 3 tx1 organizationID clusterID diagnoses with
          | .error e => (.error e, db)
          | .ok tx2 =>
            if fail (3 + diagnoses.length) then (.error "commit tx", db)
            else (.ok (), tx2)

/-- The spec-side effect of a successful batch: the cluster row
upserted and every diagnosis row appended, together. -/
def applyBatch (db : DB) (organizationID clusterID : String)
    (diagnoses : List Diagnosis) : DB :=
  { clusters := upsertCluster db.clusters clusterID organizationID
  , diagnoses := db.diagnoses ++ diagnoses.map (rowOf organizationID clusterID) }

/-- Filtering by a conjunction is filtering by each conjunct in turn.-/
theorem filter_and {α : Type} (p q : α → Bool) :
    ∀ l : List α, l.filter (fun a => p a && q a) = (l.filter p).filter q
  | [] => rfl
  | a :: l => by
    rcases Bool.eq_false_or_eq_true (p a) with hp | hp <;>
      rcases Bool.eq_false_or_eq_true (q a) with hq | hq <;>
        simp [List.filter_cons, hp, hq, filter_and p q l]

/-- C2: every row returned by the store's list operation carries the
queried tenant and cluster identifiers, and the listing for tenant A
is unchanged by any modification of other tenants' rows: two stored
states agreeing on tenant A's rows produce identical listings, even
when other tenants used the same cluster id. -/
theorem C2_tenant_isolation (organizationID clusterID : String)
    (filter : DiagnosisHistoryFilter) (db db2 : DB)
    (h : db.diagnoses.filter (fun r => r.OrganizationID == organizationID)
       = db2.diagnoses.filter (fun r => r.OrganizationID == organizationID)) :
    (ListDiagnoses db organizationID clusterID filter).all
        (fun r => r.OrganizationID == organizationID && r.ClusterID == clusterID) = true ∧
    ListDiagnoses db organizationID clusterID filter
      = ListDiagnoses db2 organizationID clusterID filter := by
  constructor
  · rw [List.all_eq_true]
    intro r hr
    have hr2 : r ∈ List.insertionSort rowGE
        (db.diagnoses.filter (rowMatches organizationID clusterID filter)) :=
      List.take_subset _ _ hr
    rw [List.mem_insertionSort] at hr2
    have hp := List.of_mem_filter hr2
    simp only [rowMatches, restMatches, Bool.and_eq_true] at hp
    simp [hp.1, hp.2.1.1]
  · have hfac : ∀ d : List DRow,
        d.filter (rowMatches organizationID clusterID filter)
          = (d.filter (fun r => r.OrganizationID == organizationID)).filter
              (restMatches clusterID filter) := by
      intro d
      rw [← filter_and]
      rfl
    unfold ListDiagnoses
    rw [hfac, hfac, h]

/-- A filter with no optional clauses and the default limit. -/
def emptyFilter : DiagnosisHistoryFilter :=
  { Limit := 0, FailureType := "", Namespace := "", Since := none, Until := none }

/-- A diagnosis row of tenant A on cluster `c1`. -/
def rowTenantA : DRow :=
  { OrganizationID := "tenantA", ClusterID := "c1", PodName := "p1"
  , Namespace := "default", FailureType := "OOMKilled"
  , LikelyCause := "Container exceeded memory limit"
  , SuggestedFix := "Increase memory limit; inspect memory usage; investigate memory leaks"
  , Confidence := "high", Events := [], CreatedAt := 10 }

/-- A diagnosis row of tenant B on the *same* cluster id `c1`. -/
def rowTenantB : DRow :=
  { OrganizationID := "tenantB", ClusterID := "c1", PodName := "p2"
  , Namespace := "default", FailureType := "CrashLoopBackOff"
  , LikelyCause := "Application crash or configuration error"
  , SuggestedFix := "Check application logs; verify environment variables; validate ConfigMap/Secret mounts"
  , Confidence := "medium", Events := [], CreatedAt := 11 }

/-- A stored state holding both tenants' rows. -/
def dbBoth : DB := { clusters := [("c1", "tenantA")], diagnoses := [rowTenantA, rowTenantB] }

/-- The same state with tenant B's row removed. -/
def dbOnlyA : DB := { clusters := [("c1", "tenantA")], diagnoses := [rowTenantA] }

/-- C2 witness: with and without tenant B's row on the shared cluster
id, tenant A's history listing is identical. -/
theorem C2_tenant_isolation_witness :
    ListDiagnoses dbBoth "tenantA" "c1" emptyFilter
      = ListDiagnoses dbOnlyA "tenantA" "c1" emptyFilter :=
  (C2_tenant_isolation "tenantA" "c1" emptyFilter dbBoth dbOnlyA (by decide)).2

/-- On success the insert loop appends exactly its batch, in order, to
the transaction's pending rows; otherwise it reports an error. -/
theorem insertLoop_spec (fail : Nat → Bool) (organizationID clusterID : String) :
    ∀ (ds : List Diagnosis) (idx : Nat) (tx : DB),
      (∃ e, insertLoop fail idx tx organizationID clusterID ds = .error e) ∨
      insertLoop fail idx tx organizationID clusterID ds
        = .ok { tx with diagnoses := tx.diagnoses ++ ds.map (rowOf organizationID clusterID) }
  | [], idx, tx => by simp [insertLoop]
  | d :: ds, idx, tx => by
    by_cases hf : fail idx
    · exact Or.inl ⟨"insert diagnosis", by simp [insertLoop, hf]⟩
    · rcases insertLoop_spec fail organizationID clusterID ds (idx + 1)
        { tx with diagnoses := tx.diagnoses ++ [rowOf organizationID clusterID d] }
        with ⟨e, he⟩ | hok
      · exact Or.inl ⟨e, by simp [insertLoop, hf, he]⟩
      · right
        simp [insertLoop, hf, hok]

/-- C3: the persist-batch operation is atomic under every fault
pattern of the underlying connection: either it returns an error and
the visible stored state is exactly the pre-call state (no cluster
upsert, no subset of the inserts), or it succeeds and the visible
state carries the cluster upsert and every row of the batch together.-/
theorem C3_save_batch_atomic (fail : Nat → Bool) (db : DB)
    (organizationID clusterID : String) (diagnoses : List Diagnosis) :
    (∃ e, SaveDiagnoses fail db organizationID clusterID diagnoses = (.error e, db)) ∨
    SaveDiagnoses fail db organizationID clusterID diagnoses
      = (.ok (), applyBatch db organizationID clusterID diagnoses) := by
  unfold SaveDiagnoses
  by_cases h0 : fail 0
  · exact Or.inl ⟨"begin tx", by simp [h0]⟩
  by_cases h1 : fail 1
  · exact Or.inl ⟨"upsert cluster", by simp [h0, h1]⟩
  cases diagnoses with
  | nil =>
    by_cases h2 : fail 2
    · exact Or.inl ⟨"commit tx", by simp [h0, h1, h2]⟩
    · right; simp [h0, h1, h2, applyBatch]
  | cons d ds =>
    by_cases h2 : fail 2
    · exact Or.inl ⟨"prepare insert diagnosis", by simp [h0, h1, h2]⟩
    rcases insertLoop_spec fail organizationID clusterID (d :: ds) 3
        { db with clusters := upsertCluster db.clusters clusterID organizationID }
        with ⟨e, he⟩ | hok
    · exact Or.inl ⟨e, by simp [h0, h1, h2, he]⟩
    by_cases h3 : fail (3 + (ds.length + 1))
    · exact Or.inl ⟨"commit tx", by simp [h0, h1, h2, hok, h3]⟩
    · right; simp [h0, h1, h2, hok, h3, applyBatch]

/-! ## Credential digest (embedding of `hashAPIKey` in
`internal/auth/middleware.go` and `cmd/keygen/main.go`)

Both Go functions compute `hex.EncodeToString(sha256.Sum256([]byte(key))[:])`.
SHA-256 and the lowercase hex encoder are embedded executably over
`Nat` byte lists (32-bit words are `Nat` reduced `% 2^32`). -/


def M32 : Nat := 4294967296

def add32 (a b : Nat) : Nat := (a + b) % M32

def rotr32 (n x : Nat) : Nat := (x >>> n) ||| ((x <<< (32 - n)) % M32)

def not32 (x : Nat) : Nat := x ^^^ (M32 - 1)

def ch32 (x y z : Nat) : Nat := (x &&& y) ^^^ (not32 x &&& z)

def maj32 (x y z : Nat) : Nat := (x &&& y) ^^^ (x &&& z) ^^^ (y &&& z)

def bigSigma0 (x : Nat) : Nat := rotr32 2 x ^^^ rotr32 13 x ^^^ rotr32 22 x

def bigSigma1 (x : Nat) : Nat := rotr32 6 x ^^^ rotr32 11 x ^^^ rotr32 25 x

def smallSigma0 (x : Nat) : Nat := rotr32 7 x ^^^ rotr32 18 x ^^^ (x >>> 3)

def smallSigma1 (x : Nat) : Nat := rotr32 17 x ^^^ rotr32 19 x ^^^ (x >>> 10)

/-- The 64 SHA-256 round constants of FIPS 180-4 (decimal). -/
def sha256K : List Nat :=
  [ 1116352408, 1899447441, 3049323471, 3921009573, 961987163,
    1508970993, 2453635748, 2870763221, 3624381080, 310598401,
    607225278, 1426881987, 1925078388, 2162078206, 2614888103,
    3248222580, 3835390401, 4022224774, 264347078, 604807628,
    770255983, 1249150122, 1555081692, 1996064986, 2554220882,
    2821834349, 2952996808, 3210313671, 3336571891, 3584528711,
    113926993, 338241895, 666307205, 773529912, 1294757372,
    1396182291, 1695183700, 1986661051, 2177026350, 2456956037,
    2730485921, 2820302411, 3259730800, 3345764771, 3516065817,
    3600352804, 4094571909, 275423344, 430227734, 506948616,
    659060556, 883997877, 958139571, 1322822218, 1537002063,
    1747873779, 1955562222, 2024104815, 2227730452, 2361852424,
    2428436474, 2756734187, 3204031479, 3329325298 ]

def padMessage (msg : List Nat) : List Nat :=
  let L := msg.length
  let zeros := List.replicate ((119 - L % 64) % 64) 0
  let lenBytes := (List.range 8).map (fun i => ((8 * L) >>> (8 * (7 - i))) % 256)
  msg ++ [0x80] ++ zeros ++ lenBytes

def blockWords (block : List Nat) : List Nat :=
  (List.range 16).map (fun i =>
    ((block.getD (4 * i) 0) <<< 24) ||| ((block.getD (4 * i + 1) 0) <<< 16) |||
    ((block.getD (4 * i + 2) 0) <<< 8) ||| block.getD (4 * i + 3) 0)

def extendWords (ws : List Nat) : List Nat :=
  (List.range 48).foldl (fun w _ =>
    let n := w.length
    w ++ [add32 (add32 (smallSigma1 (w.getD (n - 2) 0)) (w.getD (n - 7) 0))
            (add32 (smallSigma0 (w.getD (n - 15) 0)) (w.getD (n - 16) 0))]) ws

structure Hash8 where
  a : Nat
  b : Nat
  c : Nat
  d : Nat
  e : Nat
  f : Nat
  g : Nat
  h : Nat
  deriving Repr, DecidableEq

def compressStep (st : Hash8) (wk : Nat × Nat) : Hash8 :=
  let t1 := add32 st.h (add32 (bigSigma1 st.e) (add32 (ch32 st.e st.f st.g) (add32 wk.2 wk.1)))
  let t2 := add32 (bigSigma0 st.a) (maj32 st.a st.b st.c)
  { a := add32 t1 t2, b := st.a, c := st.b, d := st.c
  , e := add32 st.d t1, f := st.e, g := st.f, h := st.g }

def compressBlock (st : Hash8) (block : List Nat) : Hash8 :=
  let ws := extendWords (blockWords block)
  let fin := (ws.zip sha256K).foldl compressStep st
  { a := add32 st.a fin.a, b := add32 st.b fin.b, c := add32 st.c fin.c
  , d := add32 st.d fin.d, e := add32 st.e fin.e, f := add32 st.f fin.f
  , g := add32 st.g fin.g, h := add32 st.h fin.h }

def toBlocks : Nat → List Nat → List (List Nat)
  | 0, _ => []
  | n + 1, l => l.take 64 :: toBlocks n (l.drop 64)

/-- The eight SHA-256 initial hash values of FIPS 180-4 (decimal). -/
def sha256Init : Hash8 :=
  { a := 1779033703, b := 3144134277, c := 1013904242, d := 2773480762
  , e := 1359893119, f := 2600822924, g := 528734635, h := 1541459225 }

def sha256Words (msg : List Nat) : List Nat :=
  let padded := padMessage msg
  let st := (toBlocks (padded.length / 64) padded).foldl compressBlock sha256Init
  [st.a, st.b, st.c, st.d, st.e, st.f, st.g, st.h]

def wordBytes (w : Nat) : List Nat :=
  [(w >>> 24) % 256, (w >>> 16) % 256, (w >>> 8) % 256, w % 256]

def sha256Bytes (msg : List Nat) : List Nat := (sha256Words msg).flatMap wordBytes

def hexDigit (n : Nat) : Char :=
  if n < 10 then Char.ofNat (48 + n) else Char.ofNat (87 + n)

def hexEncode (bytes : List Nat) : String :=
  ⟨bytes.flatMap (fun b => [hexDigit (b / 16), hexDigit (b % 16)])⟩

def charUtf8 (c : Char) : List Nat :=
  let n := c.toNat
  if n < 0x80 then [n]
  else if n < 0x800 then [0xC0 ||| (n >>> 6), 0x80 ||| (n &&& 0x3F)]
  else if n < 0x10000 then
    [0xE0 ||| (n >>> 12), 0x80 ||| ((n >>> 6) &&& 0x3F), 0x80 ||| (n &&& 0x3F)]
  else
    [0xF0 ||| (n >>> 18), 0x80 ||| ((n >>> 12) &&& 0x3F),
     0x80 ||| ((n >>> 6) &&& 0x3F), 0x80 ||| (n &&& 0x3F)]

def strBytes (s : String) : List Nat := s.data.flatMap charUtf8

/-- Embeds `hashAPIKey` of `internal/auth/middleware.go` (lines 21–24):
`hex.EncodeToString(sha256.Sum256([]byte(key))[:])`. -/
def authHashAPIKey (key : String) : String := hexEncode (sha256Bytes (strBytes key))

/-- Embeds `hashAPIKey` of `cmd/keygen/main.go` (lines 25–28), whose
body is character-for-character the same digest computation. -/
def keygenHashAPIKey (key : String) : String := hexEncode (sha256Bytes (strBytes key))

/-- Every byte of a SHA-256 digest is below 256. -/
theorem sha256Bytes_lt (msg : List Nat) : ∀ b ∈ sha256Bytes msg, b < 256 := by
  intro b hb
  rw [sha256Bytes, List.mem_flatMap] at hb
  obtain ⟨w, _, hw⟩ := hb
  simp only [wordBytes, List.mem_cons, List.not_mem_nil, or_false] at hw
  rcases hw with rfl | rfl | rfl | rfl <;> exact Nat.mod_lt _ (by norm_num)

/-- The hex digits emitted by the encoder are lowercase hex characters.-/
theorem hexDigit_mem (n : Nat) (h : n < 16) :
    ("0123456789abcdef".data.contains (hexDigit n)) = true := by
  interval_cases n <;> decide

/-- C10: the keygen utility and the Auth Gateway middleware compute the
identical credential digest for every input — the lowercase hex
encoding of the SHA-256 digest of the key's bytes — so a registered
key's stored hash is exactly what the gateway later computes and
looks up. -/
theorem C10_keygen_gateway_digest_agree (key : String) :
    keygenHashAPIKey key = authHashAPIKey key ∧
    authHashAPIKey key = hexEncode (sha256Bytes (strBytes key)) ∧
    (authHashAPIKey key).data.all
        (fun c => "0123456789abcdef".data.contains c) = true := by
  refine ⟨rfl, rfl, ?_⟩
  rw [List.all_eq_true]
  intro c hc
  have hc2 : c ∈ (sha256Bytes (strBytes key)).flatMap
      (fun b => [hexDigit (b / 16), hexDigit (b % 16)]) := hc
  rw [List.mem_flatMap] at hc2
  obtain ⟨b, hb, hcmem⟩ := hc2
  have hblt := sha256Bytes_lt (strBytes key) b hb
  simp only [List.mem_cons, List.not_mem_nil, or_false] at hcmem
  rcases hcmem with rfl | rfl
  · exact hexDigit_mem _ (by omega)
  · exact hexDigit_mem _ (Nat.mod_lt _ (by norm_num))

/-! ## Auth gateway and server pipelines
(embedding of `internal/auth/middleware.go`, `cmd/server/main.go` and
the local-mode server main in src/unnamed/part_001) -/

/-- The two failure kinds of the store's `ValidateAPIKey`
(postgres.go lines 85–104): `sql.ErrNoRows` becomes the "invalid or
inactive API key" error; any other query error is wrapped as
"validate API key: ...". -/
inductive VErr where
  | notFound
  | transport
  deriving Repr, DecidableEq

/-- One row of the `api_keys` table, as read by `ValidateAPIKey`. -/
structure APIKeyRow where
  OrganizationID : String
  KeyHash : String
  Active : Bool
  deriving Repr, DecidableEq

/-- Embeds the store's `ValidateAPIKey`: a connection fault surfaces
as a transport error; otherwise the `WHERE key_hash = $1 AND active =
true` lookup either resolves the owning organization or reports the
not-found failure. (The `last_used_at` refresh touches no field read
elsewhere and is omitted.) -/
def ValidateAPIKey (connFail : Bool) (keys : List APIKeyRow) (keyHash : String) :
    Except VErr String :=
  if connFail then .error .transport
  else
    match keys.find? (fun k => k.KeyHash == keyHash && k.Active) with
    | none => .error .notFound
    | some k => .ok k.OrganizationID

/-- An inbound HTTP request as read by the middleware and mux: the
path, the method, and the `X-API-Key` header (`""` when absent). -/
structure Request where
  path : String
  method : String
  apiKey : String
  deriving Repr, DecidableEq

/-- What an inner handler returns. -/
structure HandlerOutcome where
  status : Nat
  healthServed : Bool
  deriving Repr, DecidableEq

/-- The observable outcome of the full middleware-wrapped serve:
the response status, whether the store's credential validation was
invoked, and whether the health handler ran. -/
structure ServeOutcome where
  status : Nat
  validateCalled : Bool
  healthServed : Bool
  deriving Repr, DecidableEq

/-- Embeds `APIKeyMiddleware` (middleware.go lines 26–46): trim the
header; reject 401 when blank; hash and delegate to the validator;
*any* validator error is answered with 401 "invalid API key"; on
success run the wrapped handler with the organization id in context.
The middleware body contains no path test of any kind. -/
def APIKeyMiddleware (validate : String → Except VErr String)
    (next : Request → String → HandlerOutcome) (r : Request) : ServeOutcome :=
  let apiKey := goTrim r.apiKey
  if apiKey == "" then
    { status := 401, validateCalled := false, healthServed := false }
  else
    match validate (authHashAPIKey apiKey) with
    | .error _ => { status := 401, validateCalled := true, healthServed := false }
    | .ok orgID =>
      let out := next r orgID
      { status := out.status, validateCalled := true, healthServed := out.healthServed }

/-- Embeds `LocalModeMiddleware` (middleware.go lines 53–61): always
pass through with the fixed placeholder organization id. -/
def LocalModeMiddleware (next : Request → String → HandlerOutcome)
    (r : Request) : ServeOutcome :=
  let out := next r "local-org"
  { status := out.status, validateCalled := false, healthServed := out.healthServed }

/-- The SaaS-mode mux of `cmd/server/main.go`: `/health` is handled by
`Handler.Health` of `internal/api/handler.go` (GET → 200 static
readiness payload, otherwise 405). Routes other than the health path
are irrelevant to the health-exemption claim and answer an abstract
non-health outcome. -/
def serveMuxSaaS (r : Request) (_orgID : String) : HandlerOutcome :=
  if r.path == "/health" then
    if r.method == "GET" then { status := 200, healthServed := true }
    else { status := 405, healthServed := false }
  else { status := 200, healthServed := false }

/-- The local-mode mux (part_001 with part_003's `Handler.Health`):
the health handler probes the cluster (`ready`) and answers 200 or
503, in either case without consulting any credential. -/
def serveMuxLocal (ready : Bool) (r : Request) (_orgID : String) : HandlerOutcome :=
  if r.path == "/health" then
    if r.method == "GET" then
      if ready then { status := 200, healthServed := true }
      else { status := 503, healthServed := true }
    else { status := 405, healthServed := false }
  else { status := 200, healthServed := false }

/-- Embeds the database-backed (SaaS) pipeline of
`cmd/server/main.go` lines 38–63: `auth.APIKeyMiddleware(postgresStore)`
wraps the *entire* mux, the `/health` route included. -/
def saasServe (validate : String → Except VErr String) (r : Request) : ServeOutcome :=
  APIKeyMiddleware validate serveMuxSaaS r

/-- Embeds the local/trusted pipeline of part_001 when no database is
configured: `LocalModeMiddleware` wraps the mux. -/
def localServe (ready : Bool) (r : Request) : ServeOutcome :=
  LocalModeMiddleware (serveMuxLocal ready) r

/-- A GET probe of the health path presenting no credential. -/
def healthProbe : Request := { path := "/health", method := "GET", apiKey := "" }

/-- C4: evaluation of the server pipelines at the failing input — a
GET probe of `/health` carrying no credential. In database-backed
(SaaS) mode the API-key middleware wraps every route with no path
exemption, so the probe is answered 401 and the health handler never
runs (and when a credential *is* presented on the health path, the
store's validation is invoked); in local/trusted mode the same probe
is served 200 with no validation. The code thereby contradicts its own
comments ("required for all endpoints except /health", "Health
endpoint requires no authentication") and the spec's exemption in the
database-backed mode. -/
theorem C4_health_not_exempt_in_saas_mode :
    (saasServe (fun _ => .ok "tenantA") healthProbe).status = 401 ∧
    (saasServe (fun _ => .ok "tenantA") healthProbe).healthServed = false ∧
    (saasServe (fun _ => .ok "tenantA") healthProbe).validateCalled = false ∧
    (saasServe (fun _ => .error .notFound)
        { path := "/health", method := "GET", apiKey := "kr_wrong" }).validateCalled = true ∧
    (saasServe (fun _ => .error .notFound)
        { path := "/health", method := "GET", apiKey := "kr_wrong" }).healthServed = false ∧
    (localServe true healthProbe).status = 200 ∧
    (localServe true healthProbe).healthServed = true ∧
    (localServe true healthProbe).validateCalled = false := by
  refine ⟨rfl, rfl, rfl, rfl, rfl, rfl, rfl, rfl⟩

/-- C5 counterexample: an authenticated request whose credential
validation fails with a store transport error is answered 401 — not a
5xx-class internal error — exactly as a not-found failure is, so the
two failure kinds are mapped to the same response class, refuting the
claim as stated. -/
theorem C5_counterexample_transport_also_401 :
    (saasServe (fun _ => .error .transport)
        { path := "/api/v1/agent/report", method := "POST", apiKey := "kr_live_key" }).status
      = 401 ∧
    ¬ (500 ≤ (saasServe (fun _ => .error .transport)
        { path := "/api/v1/agent/report", method := "POST", apiKey := "kr_live_key" }).status) ∧
    (saasServe (fun _ => .error .notFound)
        { path := "/api/v1/agent/report", method := "POST", apiKey := "kr_live_key" }).status
      = 401 := by
  refine ⟨rfl, by decide, rfl⟩

/-- C5 (amended): whenever credential validation fails — whether
because no matching active credential exists (not-found) or because of
a store connection/transport error — the gateway answers 401
unauthorized; the middleware maps both failure kinds to the same
unauthorized class. -/
theorem C5_validation_failures_all_unauthorized_amended
    (validate : String → Except VErr String)
    (next : Request → String → HandlerOutcome) (r : Request) (err : VErr)
    (hk : (goTrim r.apiKey == "") = false)
    (hv : validate (authHashAPIKey (goTrim r.apiKey)) = .error err) :
    (APIKeyMiddleware validate next r).status = 401 := by
  simp [APIKeyMiddleware, hk, hv]

/-- C5 witness: a concrete request with a transport-failing store is
answered 401. -/
theorem C5_validation_failures_all_unauthorized_amended_witness :
    (APIKeyMiddleware (fun _ => .error .transport) serveMuxSaaS
        { path := "/diagnose/history", method := "GET", apiKey := "kr_k" }).status = 401 :=
  C5_validation_failures_all_unauthorized_amended (fun _ => .error .transport) serveMuxSaaS
    { path := "/diagnose/history", method := "GET", apiKey := "kr_k" } .transport
    (by decide) rfl

/-! ## Ingestion handler (embedding of `AgentReport`,
`src/web/api/history.js` lines 97–141 / `internal/api/handler.go`) -/

/-- Embeds `AgentPayload`: the decoded JSON body. -/
structure AgentPayload where
  ClusterID : String
  Timestamp : Nat
  Failures : List PodFailure
  deriving Repr, DecidableEq

/-- An ingestion request as seen by the handler: the method, the
organization id placed in context by the auth middleware, and the
body's JSON-decode result (`none` when the body fails to parse). -/
structure AgentContext where
  method : String
  orgID : String
  body : Option AgentPayload
  deriving Repr, DecidableEq

/-- The observable outcome of one `AgentReport` call: response status,
whether `DiagnoseFailures` ran, whether `SaveDiagnoses` ran, and the
visible stored state afterwards. -/
structure AgentOutcome where
  status : Nat
  diagnoseCalled : Bool
  saveCalled : Bool
  db : DB
  deriving Repr, DecidableEq

/-- Embeds `AgentReport`: method check (405), organization-context
check (401), body decode (400), empty-`clusterId` check (400) — all
before the analyzer and the store are touched; then diagnose, persist
(500 on failure) and acknowledge (200). -/
def AgentReport (fail : Nat → Bool) (db : DB) (now : Nat) (r : AgentContext) :
    AgentOutcome :=
  if !(r.method == "POST") then
    { status := 405, diagnoseCalled := false, saveCalled := false, db := db }
  else if r.orgID == "" then
    { status := 401, diagnoseCalled := false, saveCalled := false, db := db }
  else
    match r.body with
    | none => { status := 400, diagnoseCalled := false, saveCalled := false, db := db }
    | some payload =>
      if payload.ClusterID == "" then
        { status := 400, diagnoseCalled := false, saveCalled := false, db := db }
      else
        let diagnoses := DiagnoseFailures r.orgID payload.ClusterID now payload.Failures
        match SaveDiagnoses fail db r.orgID payload.ClusterID diagnoses with
        | (.error _, db2) =>
          { status := 500, diagnoseCalled := true, saveCalled := true, db := db2 }
        | (.ok _, db2) =>
          { status := 200, diagnoseCalled := true, saveCalled := true, db := db2 }

/-- C9: an ingestion request whose body fails to parse, or whose
cluster identifier is empty, is answered 400 with no diagnosis work,
no persistence call, and an unchanged stored state. -/
theorem C9_malformed_ingestion_rejected_before_work
    (fail : Nat → Bool) (db : DB) (now : Nat) (r : AgentContext)
    (hm : r.method = "POST") (ho : r.orgID ≠ "")
    (hbad : r.body = none ∨ ∃ p, r.body = some p ∧ p.ClusterID = "") :
    (AgentReport fail db now r).status = 400 ∧
    (AgentReport fail db now r).diagnoseCalled = false ∧
    (AgentReport fail db now r).saveCalled = false ∧
    (AgentReport fail db now r).db = db := by
  rcases hbad with hb | ⟨p, hb, hcl⟩
  · simp [AgentReport, hm, ho, hb]
  · simp [AgentReport, hm, ho, hb, hcl]

/-- C9 witness: a POST with an empty `clusterId` against an empty
store is answered 400 and leaves the store untouched. -/
theorem C9_malformed_ingestion_rejected_before_work_witness :
    (AgentReport (fun _ => false) { clusters := [], diagnoses := [] } 0
        { method := "POST", orgID := "local-org"
        , body := some { ClusterID := "", Timestamp := 0, Failures := [] } }).status = 400 ∧
    (AgentReport (fun _ => false) { clusters := [], diagnoses := [] } 0
        { method := "POST", orgID := "local-org"
        , body := some { ClusterID := "", Timestamp := 0, Failures := [] } }).db
      = { clusters := [], diagnoses := [] } :=
  have h := C9_malformed_ingestion_rejected_before_work (fun _ => false)
    { clusters := [], diagnoses := [] } 0
    { method := "POST", orgID := "local-org"
    , body := some { ClusterID := "", Timestamp := 0, Failures := [] } }
    rfl (by decide) (Or.inr ⟨_, rfl, rfl⟩)
  ⟨h.1, h.2.2.2⟩

end KubeRoot
